import Mathlib

/-!
Shallow embedding of the `read-raw-ext4` program (`src/main.rs`), an ext4
on-disk-layout decoder: superblock, block-group descriptors, inodes,
leaf extent trees, directory entries and the `main`-driven path walk for
`/etc/hosts`.

Modelling conventions:
* A byte source (`ReadAt`) is `Nat → Option Nat`: the byte at an absolute
  offset, `none` when the offset is out of range.  `positioned_io::Slice`
  becomes the `Slice` structure below; reading through a slice translates
  offsets and enforces the optional size cap, exactly as the crate does.
* Fallible operations return `Except Err`.  Rust `?`-propagated I/O errors
  become `Err.ioError`; `assert!`/`assert_eq!` failures, `unwrap`/`expect`
  panics and debug-mode checked-arithmetic panics become the corresponding
  dedicated `Err` constructors (the program aborts there; in the embedding
  the abort propagates as an error value, tagged with which check fired).
* Machine `u64` arithmetic is `Nat` with explicit checks where the Rust
  (debug) semantics can panic: subtraction underflow, division/remainder
  by zero, and products/sums exceeding `2 ^ 64`.
* Directory-entry names are kept as raw byte lists (the Rust code decodes
  them with `String::from_utf8_lossy` and compares with string literals;
  for the ASCII names used by the program the two comparisons agree).
* The `while` loop of `dir_entries` need not terminate (a record with
  `record_length = 0` and nonzero inode never advances the cursor), so the
  scan is modelled with fuel: `none` means the Rust loop diverges; the
  callers supply fuel `dataSize + 1`, which is exhausted exactly when the
  loop diverges, since a terminating scan advances at least one byte per
  iteration.
-/

/-- A random-access byte source: byte at an absolute offset, `none` if the
offset cannot be read (out of range / truncated device). -/
abbrev ReadAt : Type := Nat → Option Nat

/-- Outcomes of the embedded program's failure points. -/
inductive Err where
  /-- An underlying read could not be satisfied (Rust: `io::Error`,
  propagated with `?`). -/
  | ioError
  /-- Debug-mode checked-arithmetic panic: `u64` subtraction underflow,
  division or remainder by zero, or overflow past `2 ^ 64` (or the `u32`
  power computing `block_size`). -/
  | arith
  /-- `assert_eq!(magic, 0xF30A)` in `ExtentHeader::new` failed: the inode
  is not extent-mapped. -/
  | extMagic
  /-- `assert_eq!(ext_header.depth, 0)` failed: multi-level extent tree. -/
  | depth
  /-- `assert!(index < ext_header.entries)` failed in `Inode::data`. -/
  | index
  /-- `assert_eq!(ext.len, 1)` failed: multi-block extent. -/
  | extLen
  /-- `assert!(sb.block_size != 1024)` failed in `desc_slice`. -/
  | blockSize
  /-- `FileType::try_from(mode & 0xF000).unwrap()` failed: unrecognized
  file-type tag. -/
  | fileType
  /-- `Option::unwrap` on `None` (the `data.size()?.unwrap()` call). -/
  | unwrapNone
  /-- `Option::expect` on `None` (a missing path component in `main`). -/
  | expectNone
  deriving DecidableEq, Repr

deriving instance DecidableEq for Except

/-- The error constructors that stand for the spec's FormatError class:
bad extent magic (non-extent-mapped inode), unsupported depth, unsupported
multi-block extent, unsupported 1024-byte block geometry, unrecognized
file-type tag. -/
def Err.isFormat : Err → Bool
  | .extMagic => true
  | .depth => true
  | .extLen => true
  | .blockSize => true
  | .fileType => true
  | _ => false

/-- Error propagation of Rust's `?` operator / panic unwinding. -/
def ebind {α β : Type} (x : Except Err α) (f : α → Except Err β) : Except Err β :=
  match x with
  | .error e => .error e
  | .ok a => f a

/-- Checked `u64` subtraction (debug semantics: underflow panics). -/
def checkedSub (a b : Nat) : Except Err Nat :=
  if b ≤ a then .ok (a - b) else .error .arith

/-- Checked `u64` division (division by zero panics). -/
def checkedDiv (a b : Nat) : Except Err Nat :=
  if b = 0 then .error .arith else .ok (a / b)

/-- Checked `u64` remainder (remainder by zero panics). -/
def checkedMod (a b : Nat) : Except Err Nat :=
  if b = 0 then .error .arith else .ok (a % b)

/-- Checked `u64` addition (debug semantics: overflow panics). -/
def checkedAdd (a b : Nat) : Except Err Nat :=
  if a + b < 2 ^ 64 then .ok (a + b) else .error .arith

/-- Checked `u64` multiplication (debug semantics: overflow panics). -/
def checkedMul (a b : Nat) : Except Err Nat :=
  if a * b < 2 ^ 64 then .ok (a * b) else .error .arith

/-- `positioned_io::Slice::new(base, off, sz)`: a window into a byte
source, optionally capped at `sz` bytes. -/
structure Slice where
  base : ReadAt
  off : Nat
  sz : Option Nat

/-- Reading a byte through a slice: translate by the slice offset and
refuse offsets at or past the size cap, as `positioned_io` does. -/
def Slice.read (s : Slice) : ReadAt := fun i =>
  match s.sz with
  | some n => if i < n then s.base (s.off + i) else none
  | none => s.base (s.off + i)

/-- A `Vec<u8>` (e.g. the inode's 60-byte inline `block` area) used as a
byte source. -/
def listReadAt (l : List Nat) : ReadAt := fun i => l[i]?

/-- `Reader::u8`: read one byte at an absolute offset. -/
def Reader.u8 (r : ReadAt) (offset : Nat) : Except Err Nat :=
  match r offset with
  | some b => .ok b
  | none => .error .ioError

/-- `Reader::u16`: little-endian `u16` at an absolute offset. -/
def Reader.u16 (r : ReadAt) (offset : Nat) : Except Err Nat :=
  ebind (Reader.u8 r offset) fun b0 =>
  ebind (Reader.u8 r (offset + 1)) fun b1 =>
  .ok (b0 + 256 * b1)

/-- `Reader::u32`: little-endian `u32` at an absolute offset. -/
def Reader.u32 (r : ReadAt) (offset : Nat) : Except Err Nat :=
  ebind (Reader.u8 r offset) fun b0 =>
  ebind (Reader.u8 r (offset + 1)) fun b1 =>
  ebind (Reader.u8 r (offset + 2)) fun b2 =>
  ebind (Reader.u8 r (offset + 3)) fun b3 =>
  .ok (b0 + 256 * b1 + 65536 * b2 + 16777216 * b3)

/-- `Reader::u64_lohi`: `u32(lo) as u64 + ((u32(hi) as u64) << 32)`. -/
def Reader.u64_lohi (r : ReadAt) (lo hi : Nat) : Except Err Nat :=
  ebind (Reader.u32 r lo) fun l =>
  ebind (Reader.u32 r hi) fun h =>
  .ok (l + h * 2 ^ 32)

/-- `Reader::vec`: `len` bytes starting at `offset`
(`read_exact_at`: fails unless every byte is available). -/
def Reader.vec (r : ReadAt) (offset : Nat) : Nat → Except Err (List Nat)
  | 0 => .ok []
  | n + 1 =>
    ebind (Reader.u8 r offset) fun b =>
    ebind (Reader.vec r (offset + 1) n) fun rest =>
    .ok (b :: rest)

/-- The `FileType` enumeration (`#[repr(u16)]`). -/
inductive FileType where
  | Fifo
  | CharacterDevice
  | Directory
  | BlockDevice
  | Regular
  | SymbolicLink
  | Socket
  deriving DecidableEq, Repr

/-- `FileType::try_from` (derived `TryFromPrimitive`): the closed mapping
from masked mode values to file types. -/
def FileType.tryFrom (v : Nat) : Option FileType :=
  if v = 0x1000 then some .Fifo
  else if v = 0x2000 then some .CharacterDevice
  else if v = 0x4000 then some .Directory
  else if v = 0x6000 then some .BlockDevice
  else if v = 0x8000 then some .Regular
  else if v = 0xA000 then some .SymbolicLink
  else if v = 0xC000 then some .Socket
  else none

/-- The `Superblock` struct (all fields widened to `u64` as in Rust). -/
structure Superblock where
  magic : Nat
  block_size : Nat
  blocks_per_group : Nat
  inodes_per_group : Nat
  inode_size : Nat
  deriving DecidableEq, Repr

/-- `Superblock::new`: decode the superblock at absolute offset 1024.
Field offsets relative to that base: magic `u16@0x38`, log block size
`u32@0x18` (block size is `2u32.pow(10 + log)`, which in a debug build
panics when the power leaves `u32`, i.e. when `log > 21`),
blocks-per-group `u32@0x20`, inodes-per-group `u32@0x28`, inode size
`u16@0x58`.  Note: the magic value is stored, never validated. -/
def Superblock.new (dev : ReadAt) : Except Err Superblock :=
  let r := Slice.read ⟨dev, 1024, none⟩
  ebind (Reader.u16 r 0x38) fun magic =>
  ebind (Reader.u32 r 0x18) fun log =>
  ebind (if log ≤ 21 then .ok ((2 : Nat) ^ (10 + log)) else .error .arith) fun bs =>
  ebind (Reader.u32 r 0x20) fun bpg =>
  ebind (Reader.u32 r 0x28) fun ipg =>
  ebind (Reader.u16 r 0x58) fun isz =>
  .ok ⟨magic, bs, bpg, ipg, isz⟩

/-- The `BlockGroupDescriptor` struct. -/
structure BlockGroupDescriptor where
  inode_table : Nat
  deriving DecidableEq, Repr

/-- `BlockGroupDescriptor::new`: only the `inode_table` field is decoded,
a lo/hi split `u64` at offsets `0x8` (low `u32`) and `0x28` (high `u32`)
of the descriptor slice. -/
def BlockGroupDescriptor.new (r : ReadAt) : Except Err BlockGroupDescriptor :=
  ebind (Reader.u64_lohi r 0x8 0x28) fun t =>
  .ok ⟨t⟩

/-- `BlockGroupNumber::desc_slice`: asserts `block_size != 1024`, then the
group descriptor table starts at offset `block_size` and descriptor `g`
sits `g * 64` bytes into it. -/
def BlockGroupNumber.desc_slice (self : Nat) (sb : Superblock) (dev : ReadAt) :
    Except Err Slice :=
  if sb.block_size = 1024 then .error .blockSize
  else
    ebind (checkedMul self 64) fun m =>
    ebind (checkedAdd sb.block_size m) fun offset =>
    .ok ⟨dev, offset, none⟩

/-- `BlockGroupNumber::desc`: decode the descriptor through its slice. -/
def BlockGroupNumber.desc (self : Nat) (sb : Superblock) (dev : ReadAt) :
    Except Err BlockGroupDescriptor :=
  ebind (BlockGroupNumber.desc_slice self sb dev) fun s =>
  BlockGroupDescriptor.new s.read

/-- `InodeNumber::blockgroup_number`: `(n - 1) / inodes_per_group`, with
debug-checked subtraction (underflow for `n = 0`) and division. -/
def InodeNumber.blockgroup_number (self : Nat) (sb : Superblock) : Except Err Nat :=
  ebind (checkedSub self 1) fun m =>
  checkedDiv m sb.inodes_per_group

/-- The `Inode` struct: `mode`, assembled 64-bit `size`, and the 60-byte
inline extent-tree root area `block`. -/
structure Inode where
  mode : Nat
  size : Nat
  block : List Nat
  deriving DecidableEq, Repr

/-- `Inode::new`: mode `u16@0x0`, size lo/hi `u32@0x4`/`u32@0x6C`,
60 inline bytes at `0x28`. -/
def Inode.new (r : ReadAt) : Except Err Inode :=
  ebind (Reader.u16 r 0x0) fun mode =>
  ebind (Reader.u64_lohi r 0x4 0x6C) fun size =>
  ebind (Reader.vec r 0x28 60) fun block =>
  .ok ⟨mode, size, block⟩

/-- `InodeNumber::inode_slice`: locate the `inode_size`-byte record of
inode `self`: group descriptor lookup, `table_off = inode_table *
block_size`, `idx = (self - 1) % inodes_per_group`,
`inode_off = table_off + inode_size * idx`. -/
def InodeNumber.inode_slice (self : Nat) (sb : Superblock) (dev : ReadAt) :
    Except Err Slice :=
  ebind (InodeNumber.blockgroup_number self sb) fun g =>
  ebind (BlockGroupNumber.desc g sb dev) fun desc =>
  ebind (checkedMul desc.inode_table sb.block_size) fun table_off =>
  ebind (checkedSub self 1) fun m =>
  ebind (checkedMod m sb.inodes_per_group) fun idx_in_table =>
  ebind (checkedMul sb.inode_size idx_in_table) fun p =>
  ebind (checkedAdd table_off p) fun inode_off =>
  .ok ⟨dev, inode_off, some sb.inode_size⟩

/-- `InodeNumber::inode`: decode the inode through its slice. -/
def InodeNumber.inode (self : Nat) (sb : Superblock) (dev : ReadAt) :
    Except Err Inode :=
  ebind (InodeNumber.inode_slice self sb dev) fun s =>
  Inode.new s.read

/-- `Inode::filetype`: mask the mode with `0xF000` and convert;
`unwrap` of a failed conversion is the `fileType` panic. -/
def Inode.filetype (self : Inode) : Except Err FileType :=
  match FileType.tryFrom (self.mode &&& 0xF000) with
  | some t => .ok t
  | none => .error .fileType

/-- The `ExtentHeader` struct (fields widened to `u64`). -/
structure ExtentHeader where
  entries : Nat
  depth : Nat
  deriving DecidableEq, Repr

/-- `ExtentHeader::new`: read magic `u16@0x0`, assert it equals `0xF30A`,
then entries `u16@0x2` and depth `u16@0x6`. -/
def ExtentHeader.new (r : ReadAt) : Except Err ExtentHeader :=
  ebind (Reader.u16 r 0x0) fun magic =>
  if magic = 0xF30A then
    ebind (Reader.u16 r 0x2) fun entries =>
    ebind (Reader.u16 r 0x6) fun depth =>
    .ok ⟨entries, depth⟩
  else .error .extMagic

/-- The `Extent` struct (fields widened to `u64`). -/
structure Extent where
  len : Nat
  start : Nat
  deriving DecidableEq, Repr

/-- `Extent::new`: len `u16@0x4`, start assembled as
`(u16@0x6 << 32) + u32@0x8`. -/
def Extent.new (r : ReadAt) : Except Err Extent :=
  ebind (Reader.u16 r 0x4) fun len =>
  ebind (Reader.u16 r 0x6) fun hi =>
  ebind (Reader.u32 r 0x8) fun lo =>
  .ok ⟨len, hi * 2 ^ 32 + lo⟩

/-- `Inode::data`: decode the inline extent header, assert depth 0 and
`index < entries`, decode the 12-byte extent record at inline offset
`12 * (index + 1)`, assert its length is 1, and return the slice of the
device at `[start * block_size, start * block_size + len * block_size)`. -/
def Inode.data (self : Inode) (sb : Superblock) (dev : ReadAt) (index : Nat) :
    Except Err Slice :=
  ebind (ExtentHeader.new (Slice.read ⟨listReadAt self.block, 0, some 12⟩)) fun ext_header =>
  if ext_header.depth = 0 then
    if index < ext_header.entries then
      ebind (checkedAdd index 1) fun i1 =>
      ebind (checkedMul 12 i1) fun offset =>
      ebind (Extent.new (Slice.read ⟨listReadAt self.block, offset, some 12⟩)) fun ext =>
      if ext.len = 1 then
        ebind (checkedMul ext.start sb.block_size) fun offset2 =>
        ebind (checkedMul ext.len sb.block_size) fun len =>
        .ok ⟨dev, offset2, some len⟩
      else .error .extLen
    else .error .index
  else .error .depth

/-- `Inode::data_count`: the inline extent header's entry count (after
asserting depth 0). -/
def Inode.data_count (self : Inode) : Except Err Nat :=
  ebind (ExtentHeader.new (Slice.read ⟨listReadAt self.block, 0, some 12⟩)) fun ext_header =>
  if ext_header.depth = 0 then .ok ext_header.entries
  else .error .depth

/-- The `DirectoryEntry` struct: record length, inode number, raw name
bytes. -/
structure DirectoryEntry where
  len : Nat
  inode : Nat
  name : List Nat
  deriving DecidableEq, Repr

/-- `DirectoryEntry::new`: name length `u8@0x6` first, then inode
`u32@0x0`, record length `u16@0x4`, and the name bytes at `0x8`. -/
def DirectoryEntry.new (r : ReadAt) : Except Err DirectoryEntry :=
  ebind (Reader.u8 r 0x6) fun name_len =>
  ebind (Reader.u32 r 0x0) fun inode =>
  ebind (Reader.u16 r 0x4) fun len =>
  ebind (Reader.vec r 0x8 name_len) fun name =>
  .ok ⟨len, inode, name⟩

/-- Results of an operation that may also diverge: `none` is the Rust
loop running forever, `some` carries the `Except` outcome. -/
abbrev OE (α : Type) : Type := Option (Except Err α)

/-- The `while offset < data_size` loop of `Inode::dir_entries`, on one
data block, with explicit fuel (one unit per iteration): parse the record
at the cursor, stop at a zero inode, otherwise keep it and advance the
cursor by the record's declared length.  `none` means the fuel ran out,
i.e. the Rust loop ran longer than the provided bound. -/
def scanBlock (dataR : ReadAt) (dataSize : Nat) : Nat → Nat → OE (List DirectoryEntry)
  | 0, _ => none
  | fuel + 1, offset =>
    if offset < dataSize then
      match DirectoryEntry.new (Slice.read ⟨dataR, offset, none⟩) with
      | .error e => some (.error e)
      | .ok entry =>
        if entry.inode = 0 then some (.ok [])
        else
          match scanBlock dataR dataSize fuel (offset + entry.len) with
          | none => none
          | some (.error e) => some (.error e)
          | some (.ok rest) => some (.ok (entry :: rest))
    else some (.ok [])

/-- The `for block_index in 0..data_count` loop of `Inode::dir_entries`:
resolve each block's slice, read its size (`data.size()?.unwrap()`), scan
it (fuel `dataSize + 1`, exhausted exactly when the Rust loop diverges),
and concatenate the per-block entry lists. -/
def dirEntriesLoop (self : Inode) (sb : Superblock) (dev : ReadAt) :
    Nat → Nat → OE (List DirectoryEntry)
  | _, 0 => some (.ok [])
  | idx, k + 1 =>
    match Inode.data self sb dev idx with
    | .error e => some (.error e)
    | .ok dataSlice =>
      match dataSlice.sz with
      | none => some (.error .unwrapNone)
      | some dataSize =>
        match scanBlock dataSlice.read dataSize (dataSize + 1) 0 with
        | none => none
        | some (.error e) => some (.error e)
        | some (.ok es) =>
          match dirEntriesLoop self sb dev (idx + 1) k with
          | none => none
          | some (.error e) => some (.error e)
          | some (.ok rest) => some (.ok (es ++ rest))

/-- `Inode::dir_entries`: all directory records of the inode's
`data_count` data blocks. -/
def Inode.dir_entries (self : Inode) (sb : Superblock) (dev : ReadAt) :
    OE (List DirectoryEntry) :=
  match self.data_count with
  | .error e => some (.error e)
  | .ok count => dirEntriesLoop self sb dev 0 count

/-- `Inode::child`: the inode number of the first directory entry whose
name matches, `none` (inner) when no entry matches. -/
def Inode.child (self : Inode) (name : List Nat) (sb : Superblock) (dev : ReadAt) :
    OE (Option Nat) :=
  match self.dir_entries sb dev with
  | none => none
  | some (.error e) => some (.error e)
  | some (.ok entries) =>
    some (.ok (((entries.filter fun x => x.name == name).head?).map DirectoryEntry.inode))

/-- The path component `"etc"` as bytes. -/
def etcName : List Nat := [101, 116, 99]

/-- The path component `"hosts"` as bytes. -/
def hostsName : List Nat := [104, 111, 115, 116, 115]

/-- The observable behaviour of `main` (printing aside): decode the
superblock, decode the root inode (number 2) and its file type, look up
the child `"etc"` (`expect`-ing it to exist), decode that inode and its
file type, look up `"hosts"` likewise, decode that inode and its file
type, resolve its logical block 0 and read `size` bytes from it.
Returns the resolved `hosts` inode number and the bytes read. -/
def mainProgram (dev : ReadAt) : OE (Nat × List Nat) :=
  match Superblock.new dev with
  | .error e => some (.error e)
  | .ok sb =>
  match InodeNumber.inode 2 sb dev with
  | .error e => some (.error e)
  | .ok root_inode =>
  match root_inode.filetype with
  | .error e => some (.error e)
  | .ok _ =>
  match root_inode.child etcName sb dev with
  | none => none
  | some (.error e) => some (.error e)
  | some (.ok none) => some (.error .expectNone)
  | some (.ok (some etcNum)) =>
  match InodeNumber.inode etcNum sb dev with
  | .error e => some (.error e)
  | .ok etc_inode =>
  match etc_inode.filetype with
  | .error e => some (.error e)
  | .ok _ =>
  match etc_inode.child hostsName sb dev with
  | none => none
  | some (.error e) => some (.error e)
  | some (.ok none) => some (.error .expectNone)
  | some (.ok (some hostsNum)) =>
  match InodeNumber.inode hostsNum sb dev with
  | .error e => some (.error e)
  | .ok hosts_inode =>
  match hosts_inode.filetype with
  | .error e => some (.error e)
  | .ok _ =>
  match hosts_inode.data sb dev 0 with
  | .error e => some (.error e)
  | .ok hosts_slice =>
  match Reader.vec hosts_slice.read 0 hosts_inode.size with
  | .error e => some (.error e)
  | .ok bytes => some (.ok (hostsNum, bytes))

/-- The bytes of `"127.0.0.1 localhost\n"`. -/
def hostsBytes : List Nat :=
  [49, 50, 55, 46, 48, 46, 48, 46, 49, 32, 108, 111, 99, 97, 108, 104, 111, 115, 116, 10]

/-- Byte `i` of the synthetic 8-block (32768-byte) volume image used for
the end-to-end checks, parameterized by the root inode's mode and the
superblock magic.  Geometry: block size 4096 (log 2), 8192 inodes per
group, inode size 128, group 0 inode table at block 2.  Inode 2 is the
root directory (one extent, data block 5 listing `"etc"` as inode 12),
inode 12 the `/etc` directory (data block 6 listing `"hosts"` as
inode 34), inode 34 a regular 20-byte file (data block 7 holding
`"127.0.0.1 localhost\n"`).  Unlisted offsets are 0. -/
def imgByte (rootMode sbMagic : Nat) (i : Nat) : Nat :=
  -- superblock at 1024: log_block_size u32@0x18 = 2
  if i = 1048 then 2
  -- inodes_per_group u32@0x28 = 8192
  else if i = 1065 then 0x20
  -- magic u16@0x38
  else if i = 1080 then sbMagic % 256
  else if i = 1081 then sbMagic / 256
  -- inode_size u16@0x58 = 128
  else if i = 1112 then 128
  -- group 0 descriptor at 4096: inode_table lo u32@0x8 = 2
  else if i = 4104 then 2
  -- inode 2 at 8192 + 1 * 128 = 8320: mode, size 4096, extent tree
  else if i = 8320 then rootMode % 256
  else if i = 8321 then rootMode / 256
  else if i = 8325 then 0x10
  else if i = 8360 then 0x0A
  else if i = 8361 then 0xF3
  else if i = 8362 then 1
  else if i = 8376 then 1
  else if i = 8380 then 5
  -- inode 12 at 8192 + 11 * 128 = 9600: directory, size 4096, data block 6
  else if i = 9601 then 0x40
  else if i = 9605 then 0x10
  else if i = 9640 then 0x0A
  else if i = 9641 then 0xF3
  else if i = 9642 then 1
  else if i = 9656 then 1
  else if i = 9660 then 6
  -- inode 34 at 8192 + 33 * 128 = 12416: regular, size 20, data block 7
  else if i = 12417 then 0x80
  else if i = 12420 then 20
  else if i = 12456 then 0x0A
  else if i = 12457 then 0xF3
  else if i = 12458 then 1
  else if i = 12472 then 1
  else if i = 12476 then 7
  -- root directory data at block 5 = 20480: "etc" -> 12, then terminator
  else if i = 20480 then 12
  else if i = 20484 then 12
  else if i = 20486 then 3
  else if i = 20488 then 101
  else if i = 20489 then 116
  else if i = 20490 then 99
  -- /etc directory data at block 6 = 24576: "hosts" -> 34, then terminator
  else if i = 24576 then 34
  else if i = 24580 then 16
  else if i = 24582 then 5
  else if i = 24584 then 104
  else if i = 24585 then 111
  else if i = 24586 then 115
  else if i = 24587 then 116
  else if i = 24588 then 115
  -- file contents at block 7 = 28672
  else if 28672 ≤ i ∧ i < 28692 then hostsBytes.getD (i - 28672) 0
  else 0

/-- The synthetic volume as a byte source (8 blocks of 4096 bytes). -/
def image (rootMode sbMagic : Nat) : ReadAt := fun i =>
  if i < 32768 then some (imgByte rootMode sbMagic i) else none

/-- The well-formed end-to-end image: root is a directory, magic valid. -/
def imgGood : ReadAt := image 0x4000 0xEF53

/-- The image with the root inode's mode set to `Regular` (`0x8000`). -/
def imgRootRegular : ReadAt := image 0x8000 0xEF53

/-- The image with an invalid superblock magic (0 instead of `0xEF53`). -/
def imgBadMagic : ReadAt := image 0x4000 0


/-- An empty byte source (no offset readable). -/
def devEmpty : ReadAt := fun _ => none

/-- The geometry decoded from the synthetic image: valid magic, 4096-byte
blocks, 8192 inodes per group, 128-byte inodes. -/
def sbStd : Superblock := ⟨0xEF53, 4096, 0, 8192, 128⟩

/-- A superblock whose derived block size is the unsupported 1024. -/
def sb1024 : Superblock := ⟨0xEF53, 1024, 0, 8192, 128⟩

/-- An inline extent area: depth 0, one extent of length 1 starting at
physical block 100. -/
def extentArea : List Nat :=
  [0x0A, 0xF3, 1, 0, 0, 0, 0, 0, 0, 0, 0, 0,
   0, 0, 0, 0, 1, 0, 0, 0, 100, 0, 0, 0]

/-- A regular-file inode carrying `extentArea`. -/
def inoExtent : Inode := ⟨0x8000, 4096, extentArea⟩

/-- An inode whose inline extent header has depth 1. -/
def inoDepth1 : Inode :=
  ⟨0x8000, 4096, [0x0A, 0xF3, 1, 0, 0, 0, 1, 0, 0, 0, 0, 0]⟩

/-- An inode whose single extent record has length 2. -/
def inoLen2 : Inode :=
  ⟨0x8000, 4096, [0x0A, 0xF3, 1, 0, 0, 0, 0, 0, 0, 0, 0, 0,
                  0, 0, 0, 0, 2, 0, 0, 0, 100, 0, 0, 0]⟩

/-- An inode whose inline area does not carry the extent-tree magic. -/
def inoBadMagic : Inode := ⟨0x8000, 4096, [0, 0, 0, 0, 0, 0, 0, 0, 0, 0, 0, 0]⟩

/-- The root directory inode of the synthetic image, as `Inode::new`
decodes it there: directory mode, size 4096, one extent at block 5. -/
def rootArea : List Nat :=
  [0x0A, 0xF3, 1, 0, 0, 0, 0, 0, 0, 0, 0, 0,
   0, 0, 0, 0, 1, 0, 0, 0, 5, 0, 0, 0] ++ List.replicate 36 0

/-- The decoded root inode of the synthetic image. -/
def rootIno : Inode := ⟨0x4000, 4096, rootArea⟩

/-- A name (`"xyz"`) absent from every synthetic directory. -/
def xyzName : List Nat := [120, 121, 122]

/-- A directory data block fully packed with two 12-byte records
(no zero-inode terminator): inode 1 named `"abc"`, inode 2 named
`"def"`. -/
def packedBlockBytes : List Nat :=
  [1, 0, 0, 0, 12, 0, 3, 0, 97, 98, 99, 0,
   2, 0, 0, 0, 12, 0, 3, 0, 100, 101, 102, 0]

/-- `packedBlockBytes` as a byte source. -/
def packedBlock : ReadAt := listReadAt packedBlockBytes

/-- A 12-byte all-zero directory block: its first record has inode 0. -/
def zeroBlock : ReadAt := listReadAt (List.replicate 12 0)

/-- A directory block whose first record has a nonzero inode and a
record length of 0: the scan cursor never advances. -/
def loopBlockBytes : List Nat := [1, 0, 0, 0, 0, 0, 0, 0]

/-- `loopBlockBytes` as a byte source. -/
def loopBlock : ReadAt := listReadAt loopBlockBytes

/-- `chainFrom dataR off es stop`: the records `es` tile the byte range
`[off, stop)` exactly: each parses at the cursor, has a nonzero inode and
a positive declared length, and the declared lengths chain the cursor
from `off` to exactly `stop`. -/
def chainFrom (dataR : ReadAt) : Nat → List DirectoryEntry → Nat → Prop
  | off, [], stop => off = stop
  | off, e :: es, stop =>
    DirectoryEntry.new (Slice.read ⟨dataR, off, none⟩) = .ok e ∧ e.inode ≠ 0 ∧
      1 ≤ e.len ∧ chainFrom dataR (off + e.len) es stop

/-- The record at offset `o` cannot stall the directory scan: parsing it
fails, or it is a terminator (inode 0), or its declared length is
positive. -/
def advancesAt (dataR : ReadAt) (o : Nat) : Bool :=
  match DirectoryEntry.new (Slice.read ⟨dataR, o, none⟩) with
  | .ok e => e.inode == 0 || decide (1 ≤ e.len)
  | .error _ => true

/-- The offsets the directory scan's cursor actually visits in a block of
`sz` bytes: 0, and after each visited record with a nonzero inode the
cursor advances by that record's declared length. -/
inductive Reaches (dataR : ReadAt) (sz : Nat) : Nat → Prop where
  | start : Reaches dataR sz 0
  | step (off : Nat) (e : DirectoryEntry) : Reaches dataR sz off → off < sz →
      DirectoryEntry.new (Slice.read ⟨dataR, off, none⟩) = .ok e → e.inode ≠ 0 →
      Reaches dataR sz (off + e.len)

@[simp] theorem ebind_ok {α β : Type} (a : α) (f : α → Except Err β) :
    ebind (.ok a) f = f a := rfl

@[simp] theorem ebind_error {α β : Type} (e : Err) (f : α → Except Err β) :
    ebind (.error e) f = .error e := rfl

theorem checkedAdd_ok {a b : Nat} (h : a + b < 2 ^ 64) : checkedAdd a b = .ok (a + b) := by
  unfold checkedAdd; rw [if_pos h]

theorem checkedMul_ok {a b : Nat} (h : a * b < 2 ^ 64) : checkedMul a b = .ok (a * b) := by
  unfold checkedMul; rw [if_pos h]

theorem checkedSub_ok {a b : Nat} (h : b ≤ a) : checkedSub a b = .ok (a - b) := by
  simp [checkedSub, h]

theorem checkedDiv_ok {a b : Nat} (h : b ≠ 0) : checkedDiv a b = .ok (a / b) := by
  simp [checkedDiv, h]

theorem checkedMod_ok {a b : Nat} (h : b ≠ 0) : checkedMod a b = .ok (a % b) := by
  simp [checkedMod, h]

theorem blockgroup_number_eq (sb : Superblock) (n : Nat) (h1 : 1 ≤ n)
    (h2 : sb.inodes_per_group ≠ 0) :
    InodeNumber.blockgroup_number n sb = .ok ((n - 1) / sb.inodes_per_group) := by
  simp [InodeNumber.blockgroup_number, checkedSub_ok h1, checkedDiv_ok h2]

/-- Claim C1: on the synthetic volume (block size 4096, 8192 inodes per
group, root directory listing `etc` as inode 12, `/etc` listing `hosts`
as inode 34, inode 34 a regular file of 20 bytes), the program's path
walk resolves `/etc/hosts` to inode 34 and reads back exactly the bytes
`"127.0.0.1 localhost\n"`. -/
theorem resolve_etc_hosts_end_to_end :
    mainProgram imgGood = some (.ok (34, hostsBytes)) := by decide

/-- Claim C5 (code bug): `Superblock::new` reads the magic field but
never compares it with `0xEF53`: on an image whose superblock magic is 0
it still returns a `Superblock` value (carrying `magic = 0`) instead of
failing with a format error. -/
theorem superblock_decode_skips_magic_check :
    Superblock.new imgBadMagic = .ok ⟨0, 4096, 0, 8192, 128⟩ := by decide

/-- Claim C3: for every inode number `n ≥ 1`, the block-group number is
`(n - 1) / inodes_per_group` (integer division), and the descriptor of
that group is addressed through an unbounded slice of the device starting
at absolute byte offset `block_size + group * 64`. -/
theorem blockgroup_addressing (sb : Superblock) (dev : ReadAt) (n : Nat)
    (h1 : 1 ≤ n) (h2 : sb.inodes_per_group ≠ 0) (h3 : sb.block_size ≠ 1024)
    (h4 : sb.block_size + (n - 1) / sb.inodes_per_group * 64 < 2 ^ 64) :
    InodeNumber.blockgroup_number n sb = .ok ((n - 1) / sb.inodes_per_group) ∧
    BlockGroupNumber.desc_slice ((n - 1) / sb.inodes_per_group) sb dev =
      .ok ⟨dev, sb.block_size + (n - 1) / sb.inodes_per_group * 64, none⟩ := by
  refine ⟨blockgroup_number_eq sb n h1 h2, ?_⟩
  have hm : (n - 1) / sb.inodes_per_group * 64 < 2 ^ 64 := by omega
  unfold BlockGroupNumber.desc_slice
  rw [if_neg h3, checkedMul_ok hm, ebind_ok, checkedAdd_ok h4, ebind_ok]

/-- Witness for C3: with 8192 inodes per group, inode numbers 2 and 8192
live in group 0 and inode number 8193 in group 1, whose descriptor slice
starts at byte 4096 + 64 = 4160. -/
theorem blockgroup_addressing_witness :
    InodeNumber.blockgroup_number 2 sbStd = .ok 0 ∧
    InodeNumber.blockgroup_number 8192 sbStd = .ok 0 ∧
    InodeNumber.blockgroup_number 8193 sbStd = .ok 1 ∧
    BlockGroupNumber.desc_slice 1 sbStd devEmpty = .ok ⟨devEmpty, 4160, none⟩ :=
  ⟨(blockgroup_addressing sbStd devEmpty 2 (by decide) (by decide) (by decide) (by decide)).1,
   (blockgroup_addressing sbStd devEmpty 8192 (by decide) (by decide) (by decide) (by decide)).1,
   (blockgroup_addressing sbStd devEmpty 8193 (by decide) (by decide) (by decide) (by decide)).1,
   (blockgroup_addressing sbStd devEmpty 8193 (by decide) (by decide) (by decide) (by decide)).2⟩

/-- Claim C9: inode-addressing arithmetic presupposes an inode number of
at least 1: for `n ≥ 1` the `(n - 1)` subtractions feeding the division
and the modulo are well-defined, while for inode number 0 the unsigned
subtraction underflows, so both the group-number computation and the
inode-slice computation end in the checked-arithmetic panic, not in an
error value of the reader (`Err.arith` is the embedded panic, distinct
from `Err.ioError`). -/
theorem inode_addressing_needs_positive_inode (sb : Superblock) (dev : ReadAt) (n : Nat)
    (h1 : 1 ≤ n) (h2 : sb.inodes_per_group ≠ 0) :
    checkedSub n 1 = .ok (n - 1) ∧
    InodeNumber.blockgroup_number n sb = .ok ((n - 1) / sb.inodes_per_group) ∧
    checkedMod (n - 1) sb.inodes_per_group = .ok ((n - 1) % sb.inodes_per_group) ∧
    InodeNumber.blockgroup_number 0 sb = .error .arith ∧
    InodeNumber.inode_slice 0 sb dev = .error .arith :=
  ⟨checkedSub_ok h1, blockgroup_number_eq sb n h1 h2, checkedMod_ok h2, rfl, rfl⟩

/-- Witness for C9 at inode number 2 with 8192 inodes per group. -/
theorem inode_addressing_needs_positive_inode_witness :
    checkedSub 2 1 = .ok 1 ∧
    InodeNumber.blockgroup_number 2 sbStd = .ok 0 ∧
    InodeNumber.blockgroup_number 0 sbStd = .error .arith ∧
    InodeNumber.inode_slice 0 sbStd devEmpty = .error .arith :=
  ⟨(inode_addressing_needs_positive_inode sbStd devEmpty 2 (by decide) (by decide)).1,
   (inode_addressing_needs_positive_inode sbStd devEmpty 2 (by decide) (by decide)).2.1,
   (inode_addressing_needs_positive_inode sbStd devEmpty 2 (by decide) (by decide)).2.2.2.1,
   (inode_addressing_needs_positive_inode sbStd devEmpty 2 (by decide) (by decide)).2.2.2.2⟩

/-- Claim C2: for an inode whose inline extent header has depth 0 and a
logical block index `i < entries`, `Inode::data` decodes the 12-byte
extent record at inline offset `12 * (i + 1)` (its length at `+0x4`, its
start as `(u16@0x6 << 32) + u32@0x8`), and when that record's length is 1
it resolves to exactly the device byte range starting at
`start * block_size` of length `block_size`. -/
theorem data_resolves_leaf_extent (ino : Inode) (sb : Superblock) (dev : ReadAt)
    (i : Nat) (hdr : ExtentHeader) (ext : Extent)
    (hhdr : ExtentHeader.new (Slice.read ⟨listReadAt ino.block, 0, some 12⟩) = .ok hdr)
    (hdepth : hdr.depth = 0) (hidx : i < hdr.entries)
    (hoff : 12 * (i + 1) < 2 ^ 64)
    (hext : Extent.new (Slice.read ⟨listReadAt ino.block, 12 * (i + 1), some 12⟩) = .ok ext)
    (hlen : ext.len = 1) (hbs : sb.block_size < 2 ^ 64)
    (hstart : ext.start * sb.block_size < 2 ^ 64) :
    Inode.data ino sb dev i = .ok ⟨dev, ext.start * sb.block_size, some sb.block_size⟩ := by
  have hadd : i + 1 < 2 ^ 64 := by omega
  have h4 : checkedMul 1 sb.block_size = .ok sb.block_size := by
    have := checkedMul_ok (a := 1) (b := sb.block_size) (by omega)
    simpa using this
  unfold Inode.data
  rw [hhdr, ebind_ok, if_pos hdepth, if_pos hidx, checkedAdd_ok hadd, ebind_ok,
    checkedMul_ok hoff, ebind_ok, hext, ebind_ok, if_pos hlen, checkedMul_ok hstart,
    ebind_ok, hlen, h4, ebind_ok]

/-- Witness for C2: header `{entries = 1, depth = 0}`, one extent
`{start = 100, len = 1}`, block size 4096: logical block 0 resolves to
the byte range `[409600, 409600 + 4096) = [409600, 413696)`. -/
theorem data_resolves_leaf_extent_witness :
    Inode.data inoExtent sbStd devEmpty 0 = .ok ⟨devEmpty, 409600, some 4096⟩ :=
  data_resolves_leaf_extent inoExtent sbStd devEmpty 0 ⟨1, 0⟩ ⟨1, 100⟩
    (by decide) rfl (by decide) (by decide) (by decide) rfl (by decide) (by decide)

/-- Claim C8: `Inode::filetype` masks the mode with `0xF000` and maps it
against exactly the closed set of seven tags; any other masked value
makes classification fail with the dedicated decode failure
(`Err.fileType`, a FormatError in the spec's taxonomy), never a silent
success. -/
theorem filetype_classification (ino : Inode) :
    (ino.mode &&& 0xF000 = 0x1000 → ino.filetype = .ok .Fifo) ∧
    (ino.mode &&& 0xF000 = 0x2000 → ino.filetype = .ok .CharacterDevice) ∧
    (ino.mode &&& 0xF000 = 0x4000 → ino.filetype = .ok .Directory) ∧
    (ino.mode &&& 0xF000 = 0x6000 → ino.filetype = .ok .BlockDevice) ∧
    (ino.mode &&& 0xF000 = 0x8000 → ino.filetype = .ok .Regular) ∧
    (ino.mode &&& 0xF000 = 0xA000 → ino.filetype = .ok .SymbolicLink) ∧
    (ino.mode &&& 0xF000 = 0xC000 → ino.filetype = .ok .Socket) ∧
    (ino.mode &&& 0xF000 ∉
        ([0x1000, 0x2000, 0x4000, 0x6000, 0x8000, 0xA000, 0xC000] : List Nat) →
      ino.filetype = .error .fileType) ∧
    Err.isFormat .fileType = true := by
  refine ⟨fun h => ?_, fun h => ?_, fun h => ?_, fun h => ?_, fun h => ?_, fun h => ?_,
    fun h => ?_, fun h => ?_, rfl⟩
  case _ => simp [Inode.filetype, FileType.tryFrom, h]
  case _ => simp [Inode.filetype, FileType.tryFrom, h]
  case _ => simp [Inode.filetype, FileType.tryFrom, h]
  case _ => simp [Inode.filetype, FileType.tryFrom, h]
  case _ => simp [Inode.filetype, FileType.tryFrom, h]
  case _ => simp [Inode.filetype, FileType.tryFrom, h]
  case _ => simp [Inode.filetype, FileType.tryFrom, h]
  case _ =>
    simp only [List.mem_cons, List.not_mem_nil, or_false] at h
    push_neg at h
    obtain ⟨h1, h2, h3, h4, h5, h6, h7⟩ := h
    simp [Inode.filetype, FileType.tryFrom, h1, h2, h3, h4, h5, h6, h7]

/-- Witness for C8: mode `0x41FF` masks to `0x4000` and classifies as a
directory; mode 0 masks to 0, outside the set, and fails. -/
theorem filetype_classification_witness :
    Inode.filetype ⟨0x41FF, 0, []⟩ = .ok .Directory ∧
    Inode.filetype ⟨0, 0, []⟩ = .error .fileType :=
  ⟨(filetype_classification ⟨0x41FF, 0, []⟩).2.2.1 (by decide),
   (filetype_classification ⟨0, 0, []⟩).2.2.2.2.2.2.2.1 (by decide)⟩

/-- Claim C6: each unsupported shape — extent header of depth 1,
extent record of length 2, inline area without the extent-tree magic
`0xF30A`, superblock with the unsupported block size 1024 — makes the
corresponding decode operation fail with its dedicated format failure
(all classified `Err.isFormat`), never returning a result. -/
theorem format_violations_rejected :
    (∀ (ino : Inode) (sb : Superblock) (dev : ReadAt) (i : Nat) (hdr : ExtentHeader),
        ExtentHeader.new (Slice.read ⟨listReadAt ino.block, 0, some 12⟩) = .ok hdr →
        hdr.depth = 1 →
        Inode.data ino sb dev i = .error .depth ∧ Err.isFormat .depth = true) ∧
    (∀ (ino : Inode) (sb : Superblock) (dev : ReadAt) (i : Nat)
        (hdr : ExtentHeader) (ext : Extent),
        ExtentHeader.new (Slice.read ⟨listReadAt ino.block, 0, some 12⟩) = .ok hdr →
        hdr.depth = 0 → i < hdr.entries → 12 * (i + 1) < 2 ^ 64 →
        Extent.new (Slice.read ⟨listReadAt ino.block, 12 * (i + 1), some 12⟩) = .ok ext →
        ext.len = 2 →
        Inode.data ino sb dev i = .error .extLen ∧ Err.isFormat .extLen = true) ∧
    (∀ (ino : Inode) (sb : Superblock) (dev : ReadAt) (i : Nat) (m : Nat),
        Reader.u16 (Slice.read ⟨listReadAt ino.block, 0, some 12⟩) 0 = .ok m →
        m ≠ 0xF30A →
        Inode.data ino sb dev i = .error .extMagic ∧ Err.isFormat .extMagic = true) ∧
    (∀ (g : Nat) (sb : Superblock) (dev : ReadAt),
        sb.block_size = 1024 →
        BlockGroupNumber.desc_slice g sb dev = .error .blockSize ∧
          Err.isFormat .blockSize = true) := by
  refine ⟨?_, ?_, ?_, ?_⟩
  · intro ino sb dev i hdr hhdr hdepth
    refine ⟨?_, rfl⟩
    unfold Inode.data
    rw [hhdr, ebind_ok, hdepth]
    simp
  · intro ino sb dev i hdr ext hhdr hdepth hidx hoff hext hlen
    refine ⟨?_, rfl⟩
    have hadd : i + 1 < 2 ^ 64 := by omega
    unfold Inode.data
    rw [hhdr, ebind_ok, if_pos hdepth, if_pos hidx, checkedAdd_ok hadd, ebind_ok,
      checkedMul_ok hoff, ebind_ok, hext, ebind_ok, hlen]
    simp
  · intro ino sb dev i m hm hne
    refine ⟨?_, rfl⟩
    unfold Inode.data ExtentHeader.new
    rw [hm, ebind_ok, if_neg hne]
    simp
  · intro g sb dev hbs
    refine ⟨?_, rfl⟩
    unfold BlockGroupNumber.desc_slice
    rw [if_pos hbs]

/-- Witness for C6: a depth-1 header, a length-2 extent, a wrong inline
magic and a 1024-byte-block superblock each produce their format
failure. -/
theorem format_violations_rejected_witness :
    Inode.data inoDepth1 sbStd devEmpty 0 = .error .depth ∧
    Inode.data inoLen2 sbStd devEmpty 0 = .error .extLen ∧
    Inode.data inoBadMagic sbStd devEmpty 0 = .error .extMagic ∧
    BlockGroupNumber.desc_slice 0 sb1024 devEmpty = .error .blockSize :=
  ⟨(format_violations_rejected.1 inoDepth1 sbStd devEmpty 0 ⟨1, 1⟩ (by decide) rfl).1,
   (format_violations_rejected.2.1 inoLen2 sbStd devEmpty 0 ⟨1, 0⟩ ⟨2, 100⟩
     (by decide) rfl (by decide) (by decide) (by decide) rfl).1,
   (format_violations_rejected.2.2.1 inoBadMagic sbStd devEmpty 0 0
     (by decide) (by decide)).1,
   (format_violations_rejected.2.2.2 0 sb1024 devEmpty rfl).1⟩

/-- Counterexample to C7: on an image identical to the good one except
that the root inode's mode is `Regular` (`0x8000`), the path walk decodes
the root, classifies it `Regular` (no error of any kind is raised for the
non-directory), happily scans its data as directory entries and resolves
`/etc/hosts` to inode 34 — no "not a directory" failure exists in the
program. -/
theorem path_walk_missing_dirtype_check :
    Superblock.new imgRootRegular = .ok sbStd ∧
    ebind (InodeNumber.inode 2 sbStd imgRootRegular) Inode.filetype = .ok .Regular ∧
    mainProgram imgRootRegular = some (.ok (34, hostsBytes)) := by decide

theorem data_mode_irrelevant (m s m2 s2 : Nat) (b : List Nat) (sb : Superblock)
    (dev : ReadAt) (i : Nat) :
    Inode.data ⟨m, s, b⟩ sb dev i = Inode.data ⟨m2, s2, b⟩ sb dev i := rfl

theorem data_count_mode_irrelevant (m s m2 s2 : Nat) (b : List Nat) :
    Inode.data_count ⟨m, s, b⟩ = Inode.data_count ⟨m2, s2, b⟩ := rfl

theorem dirEntriesLoop_mode_irrelevant (m s m2 s2 : Nat) (b : List Nat)
    (sb : Superblock) (dev : ReadAt) (k idx : Nat) :
    dirEntriesLoop ⟨m, s, b⟩ sb dev idx k = dirEntriesLoop ⟨m2, s2, b⟩ sb dev idx k := by
  induction k generalizing idx with
  | zero => rfl
  | succ k ih =>
    simp only [dirEntriesLoop]
    rw [data_mode_irrelevant m s m2 s2 b sb dev idx]
    cases Inode.data ⟨m2, s2, b⟩ sb dev idx with
    | error e => rfl
    | ok ds =>
      simp only []
      cases ds.sz with
      | none => rfl
      | some n =>
        simp only []
        cases scanBlock ds.read n (n + 1) 0 with
        | none => rfl
        | some r =>
          cases r with
          | error e => rfl
          | ok es => simp only []; rw [ih (idx + 1)]

theorem dir_entries_mode_irrelevant (m s m2 s2 : Nat) (b : List Nat)
    (sb : Superblock) (dev : ReadAt) :
    Inode.dir_entries ⟨m, s, b⟩ sb dev = Inode.dir_entries ⟨m2, s2, b⟩ sb dev := by
  simp only [Inode.dir_entries]
  rw [data_count_mode_irrelevant m s m2 s2 b]
  cases Inode.data_count ⟨m2, s2, b⟩ with
  | error e => rfl
  | ok c => exact dirEntriesLoop_mode_irrelevant m s m2 s2 b sb dev c 0

/-- Amended C7: the path walk performs no directory-type requirement at
all — `Inode::child` is oblivious to the inode's mode (and size), so a
non-directory inode mid-path is scanned as if it were a directory rather
than surfacing a "not a directory" error; what does hold is that a
component name absent from the scanned entries yields the distinct
not-found outcome (`child` returns an inner `none`, which `main` turns
into the `expect` panic), not a decode error. -/
theorem child_no_directory_requirement (m s m2 s2 : Nat) (b : List Nat)
    (name : List Nat) (sb : Superblock) (dev : ReadAt) :
    Inode.child ⟨m, s, b⟩ name sb dev = Inode.child ⟨m2, s2, b⟩ name sb dev ∧
    (∀ (ino : Inode) (entries : List DirectoryEntry),
      Inode.dir_entries ino sb dev = some (.ok entries) →
      (∀ e ∈ entries, e.name ≠ name) →
      Inode.child ino name sb dev = some (.ok none)) := by
  constructor
  · simp only [Inode.child]
    rw [dir_entries_mode_irrelevant m s m2 s2 b sb dev]
  · intro ino entries hde habs
    simp only [Inode.child, hde]
    have hfil : entries.filter (fun x => x.name == name) = [] := by
      rw [List.filter_eq_nil_iff]
      intro a ha
      simpa using habs a ha
    rw [hfil]
    rfl

/-- Witness for amended C7: changing the synthetic root inode's mode from
directory to regular leaves the `"etc"` lookup identical, and looking up
the absent name `"xyz"` in the root directory yields the inner `none`. -/
theorem child_no_directory_requirement_witness :
    Inode.child ⟨0x8000, 4096, rootArea⟩ etcName sbStd imgGood =
      Inode.child ⟨0x4000, 4096, rootArea⟩ etcName sbStd imgGood ∧
    Inode.child rootIno xyzName sbStd imgGood = some (.ok none) :=
  ⟨(child_no_directory_requirement 0x8000 4096 0x4000 4096 rootArea etcName sbStd imgGood).1,
   (child_no_directory_requirement 0 0 0 0 [] xyzName sbStd imgGood).2 rootIno
     [⟨12, 12, etcName⟩] (by decide) (by decide)⟩

theorem chainFrom_bounds (dataR : ReadAt) :
    ∀ (es : List DirectoryEntry) (off stop : Nat), chainFrom dataR off es stop →
      off + es.length ≤ stop := by
  intro es
  induction es with
  | nil =>
    intro off stop h
    simp only [chainFrom] at h
    simp [h]
  | cons e es ih =>
    intro off stop h
    simp only [chainFrom] at h
    obtain ⟨hp, hne, hlen, htail⟩ := h
    have := ih (off + e.len) stop htail
    simp only [List.length_cons]
    omega

theorem scanBlock_chain (dataR : ReadAt) (sz : Nat) :
    ∀ (es : List DirectoryEntry) (off fuel : Nat), chainFrom dataR off es sz →
      es.length < fuel → scanBlock dataR sz fuel off = some (.ok es) := by
  intro es
  induction es with
  | nil =>
    intro off fuel hch hf
    simp only [chainFrom] at hch
    cases fuel with
    | zero => omega
    | succ f =>
      simp only [scanBlock]
      rw [if_neg (by omega)]
  | cons e es ih =>
    intro off fuel hch hf
    simp only [chainFrom] at hch
    obtain ⟨hp, hne, hlen, htail⟩ := hch
    have hb := chainFrom_bounds dataR es (off + e.len) sz htail
    have hofflt : off < sz := by omega
    cases fuel with
    | zero => omega
    | succ f =>
      simp only [scanBlock]
      rw [if_pos hofflt, hp]
      simp only []
      rw [if_neg hne]
      rw [ih (off + e.len) f htail (by simp only [List.length_cons] at hf; omega)]

/-- Claim C4: the per-block directory scan starts at offset 0, advances
by each record's declared length, and stops at the block end or at the
first record with inode 0, whichever comes first: a block whose first
record has inode 0 yields the empty entry list, and a block exactly tiled
by records with nonzero inodes (no terminator) yields exactly those
records — the scan never parses a record starting at or past the block's
byte-range end. -/
theorem dir_block_scan_endpoints (dataR : ReadAt) (sz : Nat) :
    (∀ e0 : DirectoryEntry, DirectoryEntry.new (Slice.read ⟨dataR, 0, none⟩) = .ok e0 →
      e0.inode = 0 → scanBlock dataR sz (sz + 1) 0 = some (.ok [])) ∧
    (∀ es : List DirectoryEntry, chainFrom dataR 0 es sz →
      scanBlock dataR sz (sz + 1) 0 = some (.ok es)) := by
  constructor
  · intro e0 hp h0
    simp only [scanBlock]
    by_cases h : 0 < sz
    · rw [if_pos h, hp]
      simp only []
      rw [if_pos h0]
    · rw [if_neg h]
  · intro es hch
    have hb := chainFrom_bounds dataR es 0 sz hch
    exact scanBlock_chain dataR sz es 0 (sz + 1) hch (by omega)

/-- Witness for C4: the all-zero block yields no entries, and the fully
packed two-record block yields exactly its two records. -/
theorem dir_block_scan_endpoints_witness :
    scanBlock zeroBlock 12 13 0 = some (.ok []) ∧
    scanBlock packedBlock 24 25 0 =
      some (.ok [⟨12, 1, [97, 98, 99]⟩, ⟨12, 2, [100, 101, 102]⟩]) :=
  ⟨(dir_block_scan_endpoints zeroBlock 12).1 ⟨0, 0, []⟩ (by decide) rfl,
   (dir_block_scan_endpoints packedBlock 24).2
     [⟨12, 1, [97, 98, 99]⟩, ⟨12, 2, [100, 101, 102]⟩]
     (by simp only [chainFrom]; decide)⟩

theorem scanBlock_isSome_of_reach (dataR : ReadAt) (sz : Nat)
    (H : ∀ (off : Nat) (e : DirectoryEntry), Reaches dataR sz off → off < sz →
      DirectoryEntry.new (Slice.read ⟨dataR, off, none⟩) = .ok e → e.inode ≠ 0 →
      1 ≤ e.len) :
    ∀ (fuel off : Nat), Reaches dataR sz off → sz - off < fuel →
      (scanBlock dataR sz fuel off).isSome = true := by
  intro fuel
  induction fuel with
  | zero => intro off hr h; omega
  | succ f ih =>
    intro off hr h
    simp only [scanBlock]
    by_cases hlt : off < sz
    · rw [if_pos hlt]
      cases hp : DirectoryEntry.new (Slice.read ⟨dataR, off, none⟩) with
      | error e => rfl
      | ok entry =>
        simp only []
        by_cases h0 : entry.inode = 0
        · rw [if_pos h0]; rfl
        · rw [if_neg h0]
          have hlen := H off entry hr hlt hp h0
          have hrec := ih (off + entry.len) (Reaches.step off entry hr hlt hp h0) (by omega)
          cases hscan : scanBlock dataR sz f (off + entry.len) with
          | none => rw [hscan] at hrec; simp at hrec
          | some r =>
            cases r with
            | error e => rfl
            | ok es => rfl
    · rw [if_neg hlt]; rfl

theorem scanBlock_stuck (dataR : ReadAt) (sz off : Nat) (e : DirectoryEntry)
    (hofflt : off < sz) (hp : DirectoryEntry.new (Slice.read ⟨dataR, off, none⟩) = .ok e)
    (hne : e.inode ≠ 0) (hlen : e.len = 0) :
    ∀ fuel, scanBlock dataR sz fuel off = none := by
  intro fuel
  induction fuel with
  | zero => rfl
  | succ f ih =>
    simp only [scanBlock]
    rw [if_pos hofflt, hp]
    simp only []
    rw [if_neg hne, hlen, Nat.add_zero, ih]

theorem scanBlock_none_propagates (dataR : ReadAt) (sz : Nat) :
    ∀ (off : Nat), Reaches dataR sz off → (∀ fuel, scanBlock dataR sz fuel off = none) →
      ∀ fuel, scanBlock dataR sz fuel 0 = none := by
  intro off hr
  induction hr with
  | start => intro h fuel; exact h fuel
  | step o e ho hlt hp hne ih =>
    intro h fuel
    apply ih
    intro fl
    cases fl with
    | zero => rfl
    | succ f =>
      simp only [scanBlock]
      rw [if_pos hlt, hp]
      simp only []
      rw [if_neg hne, h f]

/-- Claim C10: the per-block directory scan terminates whenever every
record the cursor actually reaches with a nonzero inode has a declared
length of at least 1 (the fuel `sz + 1` is then never exhausted), and if
the cursor reaches a record with a nonzero inode and declared length 0,
the scan of that block runs forever (no amount of fuel returns). -/
theorem dir_scan_termination (dataR : ReadAt) (sz : Nat) :
    ((∀ (off : Nat) (e : DirectoryEntry), Reaches dataR sz off → off < sz →
        DirectoryEntry.new (Slice.read ⟨dataR, off, none⟩) = .ok e → e.inode ≠ 0 →
        1 ≤ e.len) →
      (scanBlock dataR sz (sz + 1) 0).isSome = true) ∧
    (∀ (off : Nat) (e : DirectoryEntry), Reaches dataR sz off → off < sz →
      DirectoryEntry.new (Slice.read ⟨dataR, off, none⟩) = .ok e → e.inode ≠ 0 →
      e.len = 0 → ∀ fuel, scanBlock dataR sz fuel 0 = none) := by
  constructor
  · intro H
    exact scanBlock_isSome_of_reach dataR sz H (sz + 1) 0 .start (by omega)
  · intro off e hr hlt hp hne hlen
    exact scanBlock_none_propagates dataR sz off hr
      (scanBlock_stuck dataR sz off e hlt hp hne hlen)

theorem advancesAt_spec (dataR : ReadAt) (sz : Nat)
    (h : ∀ o, o < sz → advancesAt dataR o = true) :
    ∀ (off : Nat) (e : DirectoryEntry), Reaches dataR sz off → off < sz →
      DirectoryEntry.new (Slice.read ⟨dataR, off, none⟩) = .ok e → e.inode ≠ 0 →
      1 ≤ e.len := by
  intro off e _ hlt hp hne
  have ha := h off hlt
  unfold advancesAt at ha
  rw [hp] at ha
  simp only [Bool.or_eq_true, beq_iff_eq, decide_eq_true_eq] at ha
  exact ha.resolve_left hne

/-- Witness for C10: the all-zero 12-byte block's scan terminates, while
the block whose first record has inode 1 and record length 0 never
returns (here checked at fuel 9 on an 8-byte block). -/
theorem dir_scan_termination_witness :
    (scanBlock zeroBlock 12 13 0).isSome = true ∧
    scanBlock loopBlock 8 9 0 = none :=
  ⟨(dir_scan_termination zeroBlock 12).1 (advancesAt_spec zeroBlock 12 (by decide)),
   (dir_scan_termination loopBlock 8).2 0 ⟨0, 1, []⟩ .start (by decide) (by decide)
     (by decide) rfl 9⟩
